import Mathlib

/-!
Verification development for the blenpc-5.0 procedural building-geometry
repository.  The geometric core is embedded shallowly: Python floats are
modelled as exact rationals (ℚ), Python dicts as ordered association
lists (Python dicts preserve insertion order), and fallible functions as
`Except`.  Constants and dataclasses that the sources import from
`mf_v5/config.py`, `mf_v5/datamodel.py` and `blenpc/engine/grid_pos.py`
(files absent from the source tree) are modelled from the specification
and marked as such.
-/

namespace MFV5

/-- Modelled from the spec: side tag of a wall segment
(`mf_v5/datamodel.py` is not in the source tree).  Spec §3: "side tag
(north/south/east/west)". -/
inductive Side where
  | north
  | south
  | east
  | west
  deriving DecidableEq, Repr

/-- Returns `true` for the sides whose door-opening test uses the x-axis
(spec §3: "north/south → x-axis test, east/west → y-axis test"),
mirroring `seg.side in ("north", "south")` in `doors.py`. -/
def Side.isHorizontal : Side → Bool
  | .north => true
  | .south => true
  | .east => false
  | .west => false

/-- Modelled from the spec: `WallSegment` dataclass of
`mf_v5/datamodel.py` (not in the source tree).  Field order follows the
constructor calls in `doors.py`:
`WallSegment(room_id, side, x1, y1, x2, y2, height, thickness)`. -/
structure WallSegment where
  room_id : ℤ
  side : Side
  x1 : ℚ
  y1 : ℚ
  x2 : ℚ
  y2 : ℚ
  height : ℚ
  thickness : ℚ
  deriving DecidableEq, Repr

/-- Modelled from the spec: `DoorOpening` dataclass of
`mf_v5/datamodel.py` (not in the source tree).  Spec §3: "room id, side,
center point (2D), width, height". -/
structure DoorOpening where
  room_id : ℤ
  side : Side
  center : ℚ × ℚ
  width : ℚ
  height : ℚ
  deriving DecidableEq, Repr

/-- Dominant-axis length of a segment: x-extent for north/south walls,
y-extent for east/west walls (spec §4.3 treats a segment "as a 1D
interval along its dominant axis"). -/
def WallSegment.domLength (s : WallSegment) : ℚ :=
  if s.side.isHorizontal then |s.x2 - s.x1| else |s.y2 - s.y1|

/-- Function `_split_horizontal` from `mf_v5/doors.py` (lines 12-22).  `ε` is the
`EPSILON` constant imported there from the missing `mf_v5/config.py`,
taken as an explicit parameter. -/
def _split_horizontal (ε : ℚ) (seg : WallSegment) (cx door_width : ℚ) :
    List WallSegment :=
  let left_end := cx - door_width / 2
  let right_start := cx + door_width / 2
  let x_min := min seg.x1 seg.x2
  let x_max := max seg.x1 seg.x2
  (if left_end - x_min > ε then
    [⟨seg.room_id, seg.side, x_min, seg.y1, left_end, seg.y2,
      seg.height, seg.thickness⟩]
   else []) ++
  (if x_max - right_start > ε then
    [⟨seg.room_id, seg.side, right_start, seg.y1, x_max, seg.y2,
      seg.height, seg.thickness⟩]
   else [])

/-- Function `_split_vertical` from `mf_v5/doors.py` (lines 25-35). -/
def _split_vertical (ε : ℚ) (seg : WallSegment) (cy door_width : ℚ) :
    List WallSegment :=
  let bottom_end := cy - door_width / 2
  let top_start := cy + door_width / 2
  let y_min := min seg.y1 seg.y2
  let y_max := max seg.y1 seg.y2
  (if bottom_end - y_min > ε then
    [⟨seg.room_id, seg.side, seg.x1, y_min, seg.x2, bottom_end,
      seg.height, seg.thickness⟩]
   else []) ++
  (if y_max - top_start > ε then
    [⟨seg.room_id, seg.side, seg.x1, top_start, seg.x2, y_max,
      seg.height, seg.thickness⟩]
   else [])

/-- The openings grouped under key `(room_id, side)` by the
`defaultdict` in `carve_doors` (lines 43-45), looked up with
`openings_by_room_side.get((room_id, seg.side), [])`.  Grouping a list
by a key and looking that key up yields exactly the sublist of matching
elements in input order, which is what this filter computes. -/
def matchingOpenings (openings : List DoorOpening) (room_id : ℤ)
    (side : Side) : List DoorOpening :=
  openings.filter (fun d => decide (d.room_id = room_id ∧ d.side = side))

/-- Body of the inner `for p in current_pieces` loop of `carve_doors`
(lines 61-74): either splits piece `p` around `opening` or passes it
through.  `segSide` is the *original* segment's side — the code tests
`seg.side`, not `p.side`, to pick the axis. -/
def applyOpening (ε : ℚ) (segSide : Side) (p : WallSegment)
    (opening : DoorOpening) : List WallSegment :=
  if segSide.isHorizontal then
    let p_min := min p.x1 p.x2
    let p_max := max p.x1 p.x2
    if opening.center.1 > p_min + ε ∧ opening.center.1 < p_max - ε then
      _split_horizontal ε p opening.center.1 opening.width
    else [p]
  else
    let p_min := min p.y1 p.y2
    let p_max := max p.y1 p.y2
    if opening.center.2 > p_min + ε ∧ opening.center.2 < p_max - ε then
      _split_vertical ε p opening.center.2 opening.width
    else [p]

/-- The `for opening in room_openings` loop of `carve_doors`
(lines 58-75): sequentially applies every matching opening to the
evolving working set of pieces, starting from `[seg]`. -/
def applyOpenings (ε : ℚ) (seg : WallSegment) (ro : List DoorOpening) :
    List WallSegment :=
  ro.foldl
    (fun pieces opening => pieces.flatMap (fun p => applyOpening ε seg.side p opening))
    [seg]

/-- Processing of one segment inside `carve_doors` (lines 51-76): a
segment with no matching opening is appended unchanged, otherwise all
matching openings are applied in input order. -/
def processSegment (ε : ℚ) (openings : List DoorOpening) (room_id : ℤ)
    (seg : WallSegment) : List WallSegment :=
  let room_openings := matchingOpenings openings room_id seg.side
  if room_openings = [] then [seg]
  else applyOpenings ε seg room_openings

/-- Function `carve_doors` from `mf_v5/doors.py` (lines 38-79).  The Python
`Dict[int, List[WallSegment]]` is modelled as an ordered association
list.  The lookup key used for openings is the *dict key* `room_id`, as
in the source, not `seg.room_id`. -/
def carve_doors (ε : ℚ) (wall_segments : List (ℤ × List WallSegment))
    (openings : List DoorOpening) : List (ℤ × List WallSegment) :=
  wall_segments.map
    (fun rs => (rs.1, rs.2.flatMap (processSegment ε openings rs.1)))

/-- A wall segment whose dominant-axis interval is `[a, b]`: x-interval
for north/south sides, y-interval for east/west sides; `y1, y2` are the
off-axis coordinates. -/
def spanSegment (rid : ℤ) (side : Side) (a b y1 y2 h t : ℚ) : WallSegment :=
  if side.isHorizontal then ⟨rid, side, a, y1, b, y2, h, t⟩
  else ⟨rid, side, y1, a, y2, b, h, t⟩

/-- A door opening of width `W` centered on the dominant-axis span
`[a, b]` of a matching segment; `c` is the off-axis coordinate. -/
def centeredOpening (rid : ℤ) (side : Side) (a b c W oh : ℚ) : DoorOpening :=
  if side.isHorizontal then ⟨rid, side, ((a + b) / 2, c), W, oh⟩
  else ⟨rid, side, (c, (a + b) / 2), W, oh⟩

end MFV5

namespace MFV5

/-- Modelled from the spec: `Rect` of `mf_v5/datamodel.py` (not in the
source tree).  Spec §3: "axis-aligned rectangle (min_x, min_y, max_x,
max_y)". -/
structure Rect where
  min_x : ℚ
  min_y : ℚ
  max_x : ℚ
  max_y : ℚ
  deriving DecidableEq, Repr

/-- Modelled from the spec: `RoofType` of `mf_v5/datamodel.py` (not in
the source tree).  Spec §3: "closed enumeration {FLAT, HIP, GABLED,
SHED}". -/
inductive RoofType where
  | FLAT
  | HIP
  | GABLED
  | SHED
  deriving DecidableEq, Repr

/-- Dataclass `RoofFace` from `mf_v5/roof.py`: an ordered tuple of 3D
vertices. -/
structure RoofFace where
  vertices : List (ℚ × ℚ × ℚ)
  deriving DecidableEq, Repr

/-- Dataclass `RoofGeometry` from `mf_v5/roof.py`. -/
structure RoofGeometry where
  roof_type : RoofType
  faces : List RoofFace
  deriving DecidableEq, Repr

/-- The FLAT branch of `build_roof` (lines 46-53): a top quad and a
reverse-wound bottom quad at `base_z`.  Factored out because the final
fallback line `return build_roof(footprint, base_z, RoofType.FLAT)`
evaluates to exactly this value (the recursion immediately hits the
FLAT branch), which keeps the embedding non-recursive. -/
def flatRoof (footprint : Rect) (base_z : ℚ) : RoofGeometry :=
  ⟨RoofType.FLAT,
    [⟨[(footprint.min_x, footprint.min_y, base_z),
       (footprint.max_x, footprint.min_y, base_z),
       (footprint.max_x, footprint.max_y, base_z),
       (footprint.min_x, footprint.max_y, base_z)]⟩,
     ⟨[(footprint.min_x, footprint.max_y, base_z),
       (footprint.max_x, footprint.max_y, base_z),
       (footprint.max_x, footprint.min_y, base_z),
       (footprint.min_x, footprint.min_y, base_z)]⟩]⟩

/-- Function `build_roof` from `mf_v5/roof.py` (lines 23-104).  `ROOF_HEIGHT` is
imported there from the missing `mf_v5/config.py` and is taken as an
explicit parameter.  The branch order (HIP, FLAT, GABLED, SHED,
fallback) mirrors the source. -/
def build_roof (ROOF_HEIGHT : ℚ) (footprint : Rect) (base_z : ℚ)
    (roof_type : RoofType) : RoofGeometry :=
  let min_x := footprint.min_x
  let min_y := footprint.min_y
  let max_x := footprint.max_x
  let max_y := footprint.max_y
  if roof_type = RoofType.HIP then
    let cx := (min_x + max_x) / 2
    let cy := (min_y + max_y) / 2
    let apex := (cx, cy, base_z + ROOF_HEIGHT)
    let c0 := (min_x, min_y, base_z)
    let c1 := (max_x, min_y, base_z)
    let c2 := (max_x, max_y, base_z)
    let c3 := (min_x, max_y, base_z)
    ⟨roof_type,
      [⟨[c0, c1, apex]⟩, ⟨[c1, c2, apex]⟩, ⟨[c2, c3, apex]⟩,
       ⟨[c3, c0, apex]⟩, ⟨[c3, c2, c1, c0]⟩]⟩
  else if roof_type = RoofType.FLAT then
    flatRoof footprint base_z
  else if roof_type = RoofType.GABLED then
    let mid_x := (min_x + max_x) / 2
    let ridge_a := (mid_x, min_y, base_z + ROOF_HEIGHT)
    let ridge_b := (mid_x, max_y, base_z + ROOF_HEIGHT)
    let c0 := (min_x, min_y, base_z)
    let c1 := (max_x, min_y, base_z)
    let c2 := (max_x, max_y, base_z)
    let c3 := (min_x, max_y, base_z)
    ⟨roof_type,
      [⟨[c0, ridge_a, ridge_b, c3]⟩, ⟨[c1, c2, ridge_b, ridge_a]⟩,
       ⟨[c0, c1, ridge_a]⟩, ⟨[c3, ridge_b, c2]⟩, ⟨[c3, c2, c1, c0]⟩]⟩
  else if roof_type = RoofType.SHED then
    let c0 := (min_x, min_y, base_z)
    let c1 := (max_x, min_y, base_z + ROOF_HEIGHT)
    let c2 := (max_x, max_y, base_z + ROOF_HEIGHT)
    let c3 := (min_x, max_y, base_z)
    let b0 := (min_x, min_y, base_z)
    let b1 := (max_x, min_y, base_z)
    let b2 := (max_x, max_y, base_z)
    let b3 := (min_x, max_y, base_z)
    ⟨roof_type,
      [⟨[c0, c1, c2, c3]⟩, ⟨[b0, b1, c1, c0]⟩, ⟨[b1, b2, c2, c1]⟩,
       ⟨[b2, b3, c3, c2]⟩, ⟨[b3, b0, c0, c3]⟩, ⟨[b3, b2, b1, b0]⟩]⟩
  else
    -- Fallback to FLAT: the source recurses with `RoofType.FLAT`,
    -- which lands in the FLAT branch above.
    flatRoof footprint base_z

end MFV5

namespace BlenPC

/-! ## `src/blenpc/config.py` — architectural and math constants -/

/-- Constant `GRID_UNIT = 0.25` from `src/blenpc/config.py`. -/
def GRID_UNIT : ℚ := 1 / 4

/-- Constant `PHI = (1 + 5**0.5) / 2` from `src/blenpc/config.py`.  √5 is
irrational, so the Python float is embedded as the exact rational value
of the IEEE-754 double produced by that expression. -/
def PHI : ℚ := 910872158600853 / 562949953421312

/-- Constant `GOLDEN_RATIO_VARIATION = 0.04` from `src/blenpc/config.py`. -/
def GOLDEN_RATIO_VARIATION : ℚ := 1 / 25

/-! ## SHA-256 (FIPS 180-4), the semantics of `hashlib.sha256` used by
`make_rng` in `src/blenpc/atoms/wall.py`.  Bytes are naturals < 256,
words are naturals < 2^32 with explicit `% 2^32`. -/

/-- Right rotation of a 32-bit word by `k` places. -/
def rotr32 (k x : ℕ) : ℕ := (x / 2 ^ k + x % 2 ^ k * 2 ^ (32 - k)) % 2 ^ 32

/-- Logical right shift of a 32-bit word by `k` places. -/
def shr32 (k x : ℕ) : ℕ := x / 2 ^ k

/-- Bitwise complement on 32 bits. -/
def not32 (x : ℕ) : ℕ := x ^^^ (2 ^ 32 - 1)

/-- SHA-256 message-schedule function σ₀. -/
def ssig0 (x : ℕ) : ℕ := rotr32 7 x ^^^ rotr32 18 x ^^^ shr32 3 x

/-- SHA-256 message-schedule function σ₁. -/
def ssig1 (x : ℕ) : ℕ := rotr32 17 x ^^^ rotr32 19 x ^^^ shr32 10 x

/-- SHA-256 compression function Σ₀. -/
def bsig0 (x : ℕ) : ℕ := rotr32 2 x ^^^ rotr32 13 x ^^^ rotr32 22 x

/-- SHA-256 compression function Σ₁. -/
def bsig1 (x : ℕ) : ℕ := rotr32 6 x ^^^ rotr32 11 x ^^^ rotr32 25 x

/-- SHA-256 choice function. -/
def shaCh (x y z : ℕ) : ℕ := x &&& y ^^^ not32 x &&& z

/-- SHA-256 majority function. -/
def shaMaj (x y z : ℕ) : ℕ := (x &&& y) ^^^ (x &&& z) ^^^ (y &&& z)

/-- The 64 SHA-256 round constants (first 32 bits of the fractional
parts of the cube roots of the first 64 primes). -/
def shaK : List ℕ :=
  [1116352408, 1899447441, 3049323471, 3921009573, 961987163, 1508970993,
   2453635748, 2870763221, 3624381080, 310598401, 607225278, 1426881987,
   1925078388, 2162078206, 2614888103, 3248222580, 3835390401, 4022224774,
   264347078, 604807628, 770255983, 1249150122, 1555081692, 1996064986,
   2554220882, 2821834349, 2952996808, 3210313671, 3336571891, 3584528711,
   113926993, 338241895, 666307205, 773529912, 1294757372, 1396182291,
   1695183700, 1986661051, 2177026350, 2456956037, 2730485921, 2820302411,
   3259730800, 3345764771, 3516065817, 3600352804, 4094571909, 275423344,
   430227734, 506948616, 659060556, 883997877, 958139571, 1322822218,
   1537002063, 1747873779, 1955562222, 2024104815, 2227730452, 2361852424,
   2428436474, 2756734187, 3204031479, 3329325298]

/-- The initial SHA-256 hash state (first 32 bits of the fractional
parts of the square roots of the first 8 primes). -/
def shaH0 : List ℕ :=
  [1779033703, 3144134277, 1013904242, 2773480762, 1359893119, 2600822924,
   528734635, 1541459225]

/-- Big-endian 8-byte encoding of a natural (the 64-bit message-length
field of the SHA-256 padding). -/
def be64 (n : ℕ) : List ℕ :=
  [n / 2 ^ 56 % 256, n / 2 ^ 48 % 256, n / 2 ^ 40 % 256, n / 2 ^ 32 % 256,
   n / 2 ^ 24 % 256, n / 2 ^ 16 % 256, n / 2 ^ 8 % 256, n % 256]

/-- Big-endian 4-byte encoding of a 32-bit word. -/
def be32 (n : ℕ) : List ℕ :=
  [n / 2 ^ 24 % 256, n / 2 ^ 16 % 256, n / 2 ^ 8 % 256, n % 256]

/-- SHA-256 padding: append `0x80`, zero bytes up to 56 mod 64, then the
big-endian 64-bit bit length. -/
def shaPad (msg : List ℕ) : List ℕ :=
  msg ++ 128 :: List.replicate ((119 - msg.length % 64) % 64) 0 ++
    be64 (8 * msg.length)

/-- Groups a byte list into big-endian 32-bit words. -/
def toWords : List ℕ → List ℕ
  | b0 :: b1 :: b2 :: b3 :: rest =>
      (b0 * 2 ^ 24 + b1 * 2 ^ 16 + b2 * 2 ^ 8 + b3) :: toWords rest
  | _ => []

/-- Extends the 16 words of a block to the 64-entry message schedule:
`W[i] = σ₁(W[i-2]) + W[i-7] + σ₀(W[i-15]) + W[i-16] (mod 2^32)`. -/
def extendSchedule (w : List ℕ) : List ℕ :=
  (List.range 48).foldl
    (fun ws _ =>
      let n := ws.length
      ws ++ [(ssig1 (ws.getD (n - 2) 0) + ws.getD (n - 7) 0 +
              ssig0 (ws.getD (n - 15) 0) + ws.getD (n - 16) 0) % 2 ^ 32])
    w

/-- One SHA-256 compression round on the working state
`(a, b, c, d, e, f, g, h)` with round constant and schedule word `kw`. -/
def shaRound (s : ℕ × ℕ × ℕ × ℕ × ℕ × ℕ × ℕ × ℕ) (kw : ℕ × ℕ) :
    ℕ × ℕ × ℕ × ℕ × ℕ × ℕ × ℕ × ℕ :=
  let (a, b, c, d, e, f, g, h) := s
  let t1 := (h + bsig1 e + shaCh e f g + kw.1 + kw.2) % 2 ^ 32
  let t2 := (bsig0 a + shaMaj a b c) % 2 ^ 32
  ((t1 + t2) % 2 ^ 32, a, b, c, (d + t1) % 2 ^ 32, e, f, g)

/-- Processes one 64-byte block, updating the 8-word hash state. -/
def processBlock (H : List ℕ) (block : List ℕ) : List ℕ :=
  let w := extendSchedule (toWords block)
  let s0 := (H.getD 0 0, H.getD 1 0, H.getD 2 0, H.getD 3 0,
             H.getD 4 0, H.getD 5 0, H.getD 6 0, H.getD 7 0)
  let r := (shaK.zip w).foldl shaRound s0
  [(H.getD 0 0 + r.1) % 2 ^ 32, (H.getD 1 0 + r.2.1) % 2 ^ 32,
   (H.getD 2 0 + r.2.2.1) % 2 ^ 32, (H.getD 3 0 + r.2.2.2.1) % 2 ^ 32,
   (H.getD 4 0 + r.2.2.2.2.1) % 2 ^ 32, (H.getD 5 0 + r.2.2.2.2.2.1) % 2 ^ 32,
   (H.getD 6 0 + r.2.2.2.2.2.2.1) % 2 ^ 32,
   (H.getD 7 0 + r.2.2.2.2.2.2.2) % 2 ^ 32]

/-- Splits a byte list into 64-byte chunks.  The fuel argument (one
unit per chunk, bounded by the list length) keeps the recursion
structural so that the kernel can evaluate it. -/
def chunks64Fuel : ℕ → List ℕ → List (List ℕ)
  | 0, _ => []
  | _, [] => []
  | fuel + 1, l => l.take 64 :: chunks64Fuel fuel (l.drop 64)

/-- Splits a byte list into 64-byte chunks. -/
def chunks64 (l : List ℕ) : List (List ℕ) := chunks64Fuel l.length l

/-- The SHA-256 digest (32 bytes) of a byte string — the semantics of
`hashlib.sha256(...).digest()`. -/
def sha256Bytes (msg : List ℕ) : List ℕ :=
  ((chunks64 (shaPad msg)).foldl processBlock shaH0).flatMap be32

/-- UTF-8 encoding of one Unicode code point. -/
def utf8EncodeCharNat (c : Char) : List ℕ :=
  let n := c.toNat
  if n < 128 then [n]
  else if n < 2048 then [192 + n / 64, 128 + n % 64]
  else if n < 65536 then [224 + n / 4096, 128 + n / 64 % 64, 128 + n % 64]
  else [240 + n / 262144, 128 + n / 4096 % 64, 128 + n / 64 % 64,
        128 + n % 64]

/-- UTF-8 bytes of a string — the semantics of `str.encode()`. -/
def strToBytes (s : String) : List ℕ := s.data.flatMap utf8EncodeCharNat

/-- Semantics of `struct.unpack` with format `<Q`: the little-endian
unsigned 64-bit
integer encoded by an 8-byte string. -/
def struct_unpack_le_u64 (bs : List ℕ) : ℕ :=
  bs.foldr (fun b acc => b + 256 * acc) 0

/-- Model of `random.Random(sub_seed)`: per spec §4.1 the generator is a
"linear pseudo-random generator" fully determined by its integer seed,
with no dependency on system entropy, time, or object identity; it is
therefore embedded as a value holding that seed. -/
structure PyRandom where
  seed : ℕ
  deriving DecidableEq, Repr

/-- Function `make_rng` from `src/blenpc/atoms/wall.py` (lines 18-23):
`sha256(f"{seed}:{subsystem}")`, first 8 digest bytes as a little-endian
u64, used as the generator seed. -/
def make_rng (seed : ℤ) (subsystem : String) : PyRandom :=
  let h := sha256Bytes (strToBytes (toString seed ++ ":" ++ subsystem))
  ⟨struct_unpack_le_u64 (h.take 8)⟩

/-- Python `round`: round half to even (banker's rounding), as used by
`golden_split`. -/
def pyRound (q : ℚ) : ℤ :=
  if q - ⌊q⌋ < 1 / 2 then ⌊q⌋
  else if 1 / 2 < q - ⌊q⌋ then ⌊q⌋ + 1
  else if 2 ∣ ⌊q⌋ then ⌊q⌋ else ⌊q⌋ + 1

/-- Function `golden_split` from `src/blenpc/atoms/wall.py` (lines 25-30).  The
single call `rng.random()` is modelled by the value `r` it returns
(a uniform draw in `[0, 1)`). -/
def golden_split (length : ℚ) (r : ℚ) : ℚ :=
  let split_point := length / PHI
  let variation := (r - 1 / 2) * GOLDEN_RATIO_VARIATION * length
  let final_split := split_point + variation
  pyRound (final_split / GRID_UNIT) * GRID_UNIT

/-! ## `src/blenpc/atoms/door.py` — modular door composer -/

/-- One entry of the door standards registry: standard width and height
in meters. -/
structure DoorDims where
  w : ℚ
  h : ℚ
  deriving DecidableEq, Repr

/-- Modelled from the spec: `DOOR_STANDARDS` is referenced by
`door.py` but absent from `src/blenpc/config.py`.  Per spec §4.6 it is
"a fixed registry of standard width/height pairs (e.g.,
single/double/garage)"; the dimensions are typical metric standards,
with the double wider than the single as the test suite requires. -/
def DOOR_STANDARDS : List (String × DoorDims) :=
  [("single", ⟨9/10, 21/10⟩), ("double", ⟨9/5, 21/10⟩),
   ("garage", ⟨12/5, 21/10⟩)]

/-- Modelled from the spec: `GridPos` of `blenpc/engine/grid_pos.py`
(not in the source tree) — an integer position in grid space. -/
structure GridPos where
  x : ℤ
  y : ℤ
  z : ℤ
  deriving DecidableEq, Repr

/-- Modelled from the spec: snap granularity per snap-mode tag; the
"meso" mode snaps to the architectural grid unit and "micro" to a
finer 0.01 grid (door hardware positions). -/
def snapUnit (snap : String) : ℚ := if snap = "micro" then 1/100 else GRID_UNIT

/-- Modelled from the spec: `GridPos.from_meters` of
`blenpc/engine/grid_pos.py` (not in the source tree) — grid-snapped
position from metric coordinates. -/
def GridPos.from_meters (x y z : ℚ) (snap : String) : GridPos :=
  ⟨pyRound (x / snapUnit snap), pyRound (y / snapUnit snap),
   pyRound (z / snapUnit snap)⟩

/-- Modelled from the spec: `meters_to_units` of
`blenpc/engine/grid_pos.py` (not in the source tree) — a metric length
in whole grid units. -/
def meters_to_units (m : ℚ) : ℤ := pyRound (m / GRID_UNIT)

/-- One value of the `parts` dict built by `build_door`: part type,
position, size, material, and (for the leaf only) the swing tag. -/
structure DoorPart where
  type : String
  position : ℚ × ℚ × ℚ
  size : ℚ × ℚ × ℚ
  material : String
  swing : Option String
  deriving DecidableEq, Repr

/-- One slot dict built by `build_door`. -/
structure DoorSlot where
  id : String
  type : String
  grid_pos : GridPos
  pos_meters : ℚ × ℚ × ℚ
  size_meters : ℚ × ℚ
  required : Bool
  occupied : Bool
  deriving DecidableEq, Repr

/-- The `meta` dict built by `build_door`. -/
structure DoorMeta where
  width_m : ℚ
  height_m : ℚ
  style : String
  material : String
  swing : String
  frame_thickness : ℚ
  leaf_thickness : ℚ
  part_count : ℕ
  slot_count : ℕ
  aabb_min : ℚ × ℚ × ℚ
  aabb_max : ℚ × ℚ × ℚ
  deriving DecidableEq, Repr

/-- The `DoorData` dataclass of `src/blenpc/atoms/door.py`.  The Python
`parts` dict is an ordered association list; `grid_pos`/`grid_size` are
in grid units. -/
structure DoorData where
  name : String
  grid_pos : GridPos
  grid_size : ℤ × ℤ × ℤ
  snap_mode : String
  style : String
  material : String
  swing : String
  parts : List (String × DoorPart)
  slots : List DoorSlot
  tags : List String
  meta : DoorMeta
  deriving DecidableEq, Repr

/-- The valid leaf materials (`door.py` line 97). -/
def valid_materials : List String := ["wood", "glass", "metal", "composite"]

/-- The valid swing directions (`door.py` line 101). -/
def valid_swings : List String :=
  ["inward_left", "inward_right", "outward_left", "outward_right", "sliding"]

/-- Python substring containment `pat in s` on character lists. -/
def substrAux (pat : List Char) : List Char → Bool
  | [] => pat.isEmpty
  | c :: rest => pat.isPrefixOf (c :: rest) || substrAux pat rest

/-- Python substring containment `pat in s` for strings, as in
`"left" in swing` (`door.py` lines 175 and 190). -/
def py_in (pat s : String) : Bool := pat.isEmpty || substrAux pat.data s.data

/-- Function `build_door` from `src/blenpc/atoms/door.py` (lines 66-253).
`ValueError` is modelled as `Except.error` carrying the message text
(Python list reprs of the valid sets flattened to plain text).  The
registry membership test of line 94 and the `DOOR_STANDARDS[style]`
access of line 106 are together one `List.lookup`. -/
def build_door (style material swing name : String)
    (position : Option (ℚ × ℚ × ℚ)) : Except String DoorData :=
  match DOOR_STANDARDS.lookup style with
  | none =>
      .error ("Invalid door style: " ++ style ++
        ". Valid: [single, double, garage]")
  | some dims =>
    if material ∉ valid_materials then
      .error ("Invalid material: " ++ material ++
        ". Valid: [wood, glass, metal, composite]")
    else if swing ∉ valid_swings then
      .error ("Invalid swing: " ++ swing ++
        ". Valid: [inward_left, inward_right, outward_left, outward_right, sliding]")
    else
      let width := dims.w
      let height := dims.h
      let FRAME_THICKNESS : ℚ := 1/20
      let LEAF_THICKNESS : ℚ := 1/20
      let FRAME_DEPTH : ℚ := 3/20
      let pos := position.getD (0, 0, 0)
      let grid_pos := GridPos.from_meters pos.1 pos.2.1 pos.2.2 "meso"
      let width_units := meters_to_units width
      let height_units := meters_to_units height
      let depth_units := meters_to_units FRAME_DEPTH
      let grid_size := (width_units, depth_units, height_units)
      let parts : List (String × DoorPart) :=
        [("frame_jamb_left",
          ⟨"frame_vertical", (0, 0, 0), (FRAME_THICKNESS, FRAME_DEPTH, height),
           "frame_wood", none⟩),
         ("frame_jamb_right",
          ⟨"frame_vertical", (width - FRAME_THICKNESS, 0, 0),
           (FRAME_THICKNESS, FRAME_DEPTH, height), "frame_wood", none⟩),
         ("frame_head",
          ⟨"frame_horizontal", (0, 0, height - FRAME_THICKNESS),
           (width, FRAME_DEPTH, FRAME_THICKNESS), "frame_wood", none⟩),
         ("door_leaf",
          ⟨"leaf", (FRAME_THICKNESS, FRAME_DEPTH / 2, FRAME_THICKNESS),
           (width - 2 * FRAME_THICKNESS, LEAF_THICKNESS,
            height - 2 * FRAME_THICKNESS), material, some swing⟩)]
      let wall_interface_slot : DoorSlot :=
        ⟨"wall_interface", "door_opening",
         ⟨width_units / 2, depth_units / 2, height_units / 2⟩,
         (width / 2, FRAME_DEPTH / 2, height / 2), (width, height),
         true, false⟩
      let knob_x := if py_in "left" swing then width - 1/10 else 1/10
      let knob_z : ℚ := 19/20
      let doorknob_slot : DoorSlot :=
        ⟨"doorknob", "door_hardware",
         GridPos.from_meters knob_x (FRAME_DEPTH / 2) knob_z "micro",
         (knob_x, FRAME_DEPTH / 2, knob_z), (3/50, 3/50), false, false⟩
      let hinge_x := if py_in "left" swing then 1/20 else width - 1/20
      let hinge_top_slot : DoorSlot :=
        ⟨"hinge_top", "door_hinge",
         GridPos.from_meters hinge_x (FRAME_DEPTH / 2) (height - 1/5) "micro",
         (hinge_x, FRAME_DEPTH / 2, height - 1/5), (1/25, 1/10), true, false⟩
      let hinge_bot_slot : DoorSlot :=
        ⟨"hinge_bot", "door_hinge",
         GridPos.from_meters hinge_x (FRAME_DEPTH / 2) (3/10) "micro",
         (hinge_x, FRAME_DEPTH / 2, 3/10), (1/25, 1/10), true, false⟩
      let slots := [wall_interface_slot, doorknob_slot, hinge_top_slot,
                    hinge_bot_slot]
      -- f"size_{width}m" renders the rational width with Lean's
      -- notation rather than Python float formatting.
      let tags := ["arch_door", "door_" ++ style, "mat_" ++ material,
                   "swing_" ++ swing, "size_" ++ toString width ++ "m",
                   "modular_v2"]
      let meta : DoorMeta :=
        ⟨width, height, style, material, swing, FRAME_THICKNESS,
         LEAF_THICKNESS, parts.length, slots.length, (0, 0, 0),
         (width, FRAME_DEPTH, height)⟩
      .ok ⟨name, grid_pos, grid_size, "meso", style, material, swing,
           parts, slots, tags, meta⟩

end BlenPC

namespace MFV5

/-- The positions of `ridge_a` and `ridge_b` as they occur in the first
GABLED slope face `(c0, ridge_a, ridge_b, c3)` of `build_roof`. -/
def gabledRidgeEndpoints (g : RoofGeometry) : (ℚ × ℚ × ℚ) × (ℚ × ℚ × ℚ) :=
  ((g.faces.headD ⟨[]⟩).vertices.getD 1 (0, 0, 0),
   (g.faces.headD ⟨[]⟩).vertices.getD 2 (0, 0, 0))

end MFV5

namespace BlenPC

/-- Placeholder slot used as the default of list indexing in the door
theorems. -/
def noSlot : DoorSlot :=
  ⟨"", "", ⟨0, 0, 0⟩, (0, 0, 0), (0, 0), false, false⟩

/-- Placeholder door used as the default when projecting an `Except`
result in the door theorems. -/
def defaultDoor : DoorData :=
  ⟨"", ⟨0, 0, 0⟩, (0, 0, 0), "", "", "", "", [], [], [],
   ⟨0, 0, "", "", "", 0, 0, 0, 0, (0, 0, 0), (0, 0, 0)⟩⟩

/-- The door carried by a successful `build_door` result
(`defaultDoor` on error). -/
def doorOf (e : Except String DoorData) : DoorData :=
  e.toOption.getD defaultDoor

end BlenPC

/-! ## Sanity anchors for the SHA-256 embedding -/

/- FIPS 180-4 test vector: SHA-256("abc"). -/
example : BlenPC.sha256Bytes (BlenPC.strToBytes "abc") =
    [186, 120, 22, 191, 143, 1, 207, 234, 65, 65, 64, 222, 93, 174, 34, 35,
     176, 3, 97, 163, 150, 23, 122, 156, 180, 16, 255, 97, 242, 0, 21,
     173] := by decide

/- The derived sub-seed for seed 1, subsystem "wall_slots", matching
`struct.unpack('<Q', hashlib.sha256(b"1:wall_slots").digest()[:8])[0]`. -/
example : (BlenPC.make_rng 1 "wall_slots").seed = 8745446858123401665 := by
  decide

namespace MFV5

end MFV5

namespace BlenPC

/-- Lemma: `struct_unpack_le_u64` really is the little-endian base-256
value of
its byte list. -/
theorem struct_unpack_eq_sum (l : List ℕ) :
    struct_unpack_le_u64 l =
      ∑ i ∈ Finset.range l.length, l.getD i 0 * 256 ^ i := by
  induction l with
  | nil => simp [struct_unpack_le_u64]
  | cons b t ih =>
      have h : struct_unpack_le_u64 (b :: t) =
          b + 256 * struct_unpack_le_u64 t := rfl
      rw [h, ih, List.length_cons, Finset.sum_range_succ', Finset.mul_sum]
      simp only [List.getD_cons_succ, List.getD_cons_zero, pow_zero, mul_one]
      have e : ∀ i ∈ Finset.range t.length,
          256 * (t.getD i 0 * 256 ^ i) = t.getD i 0 * 256 ^ (i + 1) :=
        fun i _ => by ring
      rw [Finset.sum_congr rfl e]
      ring

/-- One compression pass always yields an 8-word state. -/
theorem processBlock_length (H b : List ℕ) : (processBlock H b).length = 8 :=
  rfl

/-- Folding the compression over at least one block yields an 8-word
state. -/
theorem foldl_processBlock_length (bs : List (List ℕ)) (H : List ℕ)
    (h : bs ≠ []) : (bs.foldl processBlock H).length = 8 := by
  induction bs generalizing H with
  | nil => exact absurd rfl h
  | cons b t ih =>
      cases t with
      | nil => exact processBlock_length H b
      | cons b2 t2 =>
          rw [List.foldl_cons]
          exact ih (processBlock H b) (by simp)

/-- The padded message is never empty. -/
theorem shaPad_ne_nil (msg : List ℕ) : shaPad msg ≠ [] := by simp [shaPad]

/-- Chunking a nonempty list yields at least one chunk. -/
theorem chunks64_ne_nil (l : List ℕ) (h : l ≠ []) : chunks64 l ≠ [] := by
  obtain ⟨a, t, rfl⟩ := List.exists_cons_of_ne_nil h
  simp [chunks64, chunks64Fuel]

/-- A SHA-256 digest is exactly 32 bytes. -/
theorem sha256Bytes_length (msg : List ℕ) : (sha256Bytes msg).length = 32 := by
  unfold sha256Bytes
  rw [List.length_flatMap]
  have aux : ∀ L : List ℕ, (L.map (List.length ∘ be32)).sum = 4 * L.length := by
    intro L
    induction L with
    | nil => simp
    | cons x t ih => simp [ih, be32]; ring
  rw [aux, foldl_processBlock_length _ _ (chunks64_ne_nil _ (shaPad_ne_nil msg))]

/-- C3: `make_rng` is a pure function of the pair (seed, subsystem) —
equal inputs give equal generators, hence identical output sequences —
and the generator's seed is exactly the little-endian unsigned 64-bit
integer formed from the first 8 bytes of the 32-byte SHA-256 digest of
the string `"{seed}:{subsystem}"`. -/
theorem make_rng_deterministic (s₁ s₂ : ℤ) (n₁ n₂ : String)
    (hs : s₁ = s₂) (hn : n₁ = n₂) :
    make_rng s₁ n₁ = make_rng s₂ n₂ ∧
    (sha256Bytes (strToBytes (toString s₁ ++ ":" ++ n₁))).length = 32 ∧
    (make_rng s₁ n₁).seed =
      ∑ i ∈ Finset.range 8,
        (sha256Bytes (strToBytes (toString s₁ ++ ":" ++ n₁))).getD i 0 *
          256 ^ i := by
  subst hs; subst hn
  refine ⟨rfl, sha256Bytes_length _, ?_⟩
  have hlen := sha256Bytes_length (strToBytes (toString s₁ ++ ":" ++ n₁))
  show struct_unpack_le_u64
      ((sha256Bytes (strToBytes (toString s₁ ++ ":" ++ n₁))).take 8) = _
  rw [struct_unpack_eq_sum, List.length_take, hlen]
  norm_num
  refine Finset.sum_congr rfl fun i hi => ?_
  rw [Finset.mem_range] at hi
  simp [List.getD, List.getElem?_take, hi]

/-- Witness for C3 at seed 1, subsystem "wall_slots". -/
theorem make_rng_deterministic_witness :
    ((1 : ℤ) = 1 ∧ "wall_slots" = "wall_slots") ∧
    (make_rng 1 "wall_slots" = make_rng 1 "wall_slots" ∧
     (sha256Bytes (strToBytes (toString (1 : ℤ) ++ ":" ++
       "wall_slots"))).length = 32 ∧
     (make_rng 1 "wall_slots").seed =
       ∑ i ∈ Finset.range 8,
         (sha256Bytes (strToBytes (toString (1 : ℤ) ++ ":" ++
           "wall_slots"))).getD i 0 * 256 ^ i) :=
  ⟨⟨rfl, rfl⟩, make_rng_deterministic 1 1 "wall_slots" "wall_slots" rfl rfl⟩

/-- Python `round` lands within a half unit of its argument. -/
theorem pyRound_sub_abs (q : ℚ) : |q - pyRound q| ≤ 1 / 2 := by
  unfold pyRound
  have h0 : (⌊q⌋ : ℚ) ≤ q := Int.floor_le q
  have h1 : q < ⌊q⌋ + 1 := Int.lt_floor_add_one q
  split
  · rw [abs_le]; constructor <;> [linarith; linarith]
  · split
    · rw [abs_le]; push_cast; constructor <;> [linarith; linarith]
    · split <;> (rw [abs_le]; push_cast; constructor <;> [linarith; linarith])

/-- C4: for positive `length` and a uniform draw `r ∈ [0, 1)`,
`golden_split` lies within
`[length/PHI - GOLDEN_RATIO_VARIATION*length/2 - GRID_UNIT,
  length/PHI + GOLDEN_RATIO_VARIATION*length/2 + GRID_UNIT]`
and is an exact integer multiple of `GRID_UNIT`. -/
theorem golden_split_bounds (length r : ℚ) (hl : 0 < length)
    (hr0 : 0 ≤ r) (hr1 : r < 1) :
    length / PHI - GOLDEN_RATIO_VARIATION * length / 2 - GRID_UNIT ≤
      golden_split length r ∧
    golden_split length r ≤
      length / PHI + GOLDEN_RATIO_VARIATION * length / 2 + GRID_UNIT ∧
    ∃ k : ℤ, golden_split length r = k * GRID_UNIT := by
  have hb := pyRound_sub_abs
    ((length / PHI + (r - 1/2) * GOLDEN_RATIO_VARIATION * length) / GRID_UNIT)
  rw [abs_le] at hb
  obtain ⟨hb1, hb2⟩ := hb
  have hgr : golden_split length r =
      (pyRound ((length / PHI +
        (r - 1/2) * GOLDEN_RATIO_VARIATION * length) / GRID_UNIT) : ℤ) *
      GRID_UNIT := rfl
  rw [hgr]
  rw [show GRID_UNIT = (1/4 : ℚ) from rfl,
      show GOLDEN_RATIO_VARIATION = (1/25 : ℚ) from rfl] at hb1 hb2 ⊢
  have hv1 : -(1/50) * length ≤ (r - 1/2) * (1/25) * length := by nlinarith
  have hv2 : (r - 1/2) * (1/25) * length ≤ 1/50 * length := by nlinarith
  refine ⟨by linarith, by linarith, ⟨_, rfl⟩⟩

/-- Witness for C4 at `length = 1`, `r = 1/2`. -/
theorem golden_split_bounds_witness :
    ((0 : ℚ) < 1 ∧ (0 : ℚ) ≤ 1/2 ∧ (1/2 : ℚ) < 1) ∧
    ((1 : ℚ) / PHI - GOLDEN_RATIO_VARIATION * 1 / 2 - GRID_UNIT ≤
       golden_split 1 (1/2) ∧
     golden_split 1 (1/2) ≤
       (1 : ℚ) / PHI + GOLDEN_RATIO_VARIATION * 1 / 2 + GRID_UNIT ∧
     ∃ k : ℤ, golden_split 1 (1/2) = k * GRID_UNIT) :=
  ⟨⟨by norm_num, by norm_num, by norm_num⟩,
   golden_split_bounds 1 (1/2) (by norm_num) (by norm_num) (by norm_num)⟩

/-- The registry lookup fails exactly for styles outside the
single/double/garage registry. -/
theorem lookup_door_standards_none_iff (style : String) :
    DOOR_STANDARDS.lookup style = none ↔
      style ∉ ["single", "double", "garage"] := by
  constructor
  · intro h hmem
    simp only [List.mem_cons, List.mem_singleton, List.not_mem_nil,
      or_false] at hmem
    rcases hmem with rfl | rfl | rfl <;>
      simp [DOOR_STANDARDS, List.lookup] at h
  · intro h
    simp only [List.mem_cons, List.mem_singleton, List.not_mem_nil,
      or_false, not_or] at h
    obtain ⟨h1, h2, h3⟩ := h
    have e1 : (style == "single") = false := beq_eq_false_iff_ne.mpr h1
    have e2 : (style == "double") = false := beq_eq_false_iff_ne.mpr h2
    have e3 : (style == "garage") = false := beq_eq_false_iff_ne.mpr h3
    simp [DOOR_STANDARDS, List.lookup, e1, e2, e3]

/-- C7: `build_door` fails with an invalid-argument error naming the
offending value and the valid set exactly when the style is outside the
standards registry, the material outside the material set, or the swing
outside the swing set (checked in that order); for every valid
combination it succeeds and the returned door carries the arguments
uncoerced. -/
theorem build_door_validation (style material swing name : String)
    (position : Option (ℚ × ℚ × ℚ)) :
    ((∃ d, build_door style material swing name position = .ok d) ↔
      style ∈ ["single", "double", "garage"] ∧ material ∈ valid_materials ∧
        swing ∈ valid_swings) ∧
    (style ∉ ["single", "double", "garage"] →
      build_door style material swing name position =
        .error ("Invalid door style: " ++ style ++
          ". Valid: [single, double, garage]")) ∧
    (style ∈ ["single", "double", "garage"] → material ∉ valid_materials →
      build_door style material swing name position =
        .error ("Invalid material: " ++ material ++
          ". Valid: [wood, glass, metal, composite]")) ∧
    (style ∈ ["single", "double", "garage"] → material ∈ valid_materials →
      swing ∉ valid_swings →
      build_door style material swing name position =
        .error ("Invalid swing: " ++ swing ++
          ". Valid: [inward_left, inward_right, outward_left, outward_right, sliding]")) ∧
    (∀ d, build_door style material swing name position = .ok d →
      d.style = style ∧ d.material = material ∧ d.swing = swing) := by
  refine ⟨⟨?_, ?_⟩, ?_, ?_, ?_, ?_⟩
  · rintro ⟨d, hd⟩
    by_cases hs : style ∈ ["single", "double", "garage"]
    · by_cases hm : material ∈ valid_materials
      · by_cases hw : swing ∈ valid_swings
        · exact ⟨hs, hm, hw⟩
        · simp only [List.mem_cons, List.mem_singleton, List.not_mem_nil,
            or_false] at hs
          rcases hs with rfl | rfl | rfl <;>
            simp [build_door, DOOR_STANDARDS, List.lookup, hm, hw] at hd
      · simp only [List.mem_cons, List.mem_singleton, List.not_mem_nil,
          or_false] at hs
        rcases hs with rfl | rfl | rfl <;>
          simp [build_door, DOOR_STANDARDS, List.lookup, hm] at hd
    · rw [build_door, (lookup_door_standards_none_iff style).mpr hs] at hd
      exact absurd hd (by simp)
  · rintro ⟨hs, hm, hw⟩
    simp only [List.mem_cons, List.mem_singleton, List.not_mem_nil,
      or_false] at hs
    rcases hs with rfl | rfl | rfl <;>
      · rw [build_door]
        simp [DOOR_STANDARDS, List.lookup, hm, hw]
  · intro hs
    rw [build_door, (lookup_door_standards_none_iff style).mpr hs]
  · intro hs hm
    simp only [List.mem_cons, List.mem_singleton, List.not_mem_nil,
      or_false] at hs
    rcases hs with rfl | rfl | rfl <;>
      · rw [build_door]
        simp [DOOR_STANDARDS, List.lookup, hm]
  · intro hs hm hw
    simp only [List.mem_cons, List.mem_singleton, List.not_mem_nil,
      or_false] at hs
    rcases hs with rfl | rfl | rfl <;>
      · rw [build_door]
        simp [DOOR_STANDARDS, List.lookup, hm, hw]
  · intro d hd
    by_cases hs : style ∈ ["single", "double", "garage"]
    · by_cases hm : material ∈ valid_materials
      · by_cases hw : swing ∈ valid_swings
        · simp only [List.mem_cons, List.mem_singleton, List.not_mem_nil,
            or_false] at hs
          rcases hs with rfl | rfl | rfl <;>
            · rw [build_door] at hd
              simp only [DOOR_STANDARDS, List.lookup] at hd
              simp [hm, hw] at hd
              obtain rfl := hd.symm
              exact ⟨rfl, rfl, rfl⟩
        · simp only [List.mem_cons, List.mem_singleton, List.not_mem_nil,
            or_false] at hs
          rcases hs with rfl | rfl | rfl <;>
            simp [build_door, DOOR_STANDARDS, List.lookup, hm, hw] at hd
      · simp only [List.mem_cons, List.mem_singleton, List.not_mem_nil,
          or_false] at hs
        rcases hs with rfl | rfl | rfl <;>
          simp [build_door, DOOR_STANDARDS, List.lookup, hm] at hd
    · rw [build_door, (lookup_door_standards_none_iff style).mpr hs] at hd
      exact absurd hd (by simp)

/-- C8: the single/wood/inward_left door has exactly the four named
parts and four slots, carries the four classification tags, and its
doorknob slot sits 0.1 m from the edge opposite the left hinge — hence
beyond width/2 — as it does for every valid swing containing "left". -/
theorem build_door_single_wood_inward_left :
    ((∃ d, build_door "single" "wood" "inward_left" "door" none = .ok d) ∧
     (doorOf (build_door "single" "wood" "inward_left" "door"
        none)).parts.map Prod.fst =
       ["frame_jamb_left", "frame_jamb_right", "frame_head", "door_leaf"] ∧
     (doorOf (build_door "single" "wood" "inward_left" "door"
        none)).parts.length = 4 ∧
     (doorOf (build_door "single" "wood" "inward_left" "door"
        none)).slots.map DoorSlot.id =
       ["wall_interface", "doorknob", "hinge_top", "hinge_bot"] ∧
     (doorOf (build_door "single" "wood" "inward_left" "door"
        none)).slots.length = 4 ∧
     ["arch_door", "door_single", "mat_wood", "swing_inward_left"].all
       (fun t => (doorOf (build_door "single" "wood" "inward_left" "door"
          none)).tags.contains t) = true ∧
     ((doorOf (build_door "single" "wood" "inward_left" "door"
        none)).slots.getD 1 noSlot).pos_meters.1 =
       (doorOf (build_door "single" "wood" "inward_left" "door"
        none)).meta.width_m - 1/10 ∧
     (doorOf (build_door "single" "wood" "inward_left" "door"
        none)).meta.width_m / 2 <
       ((doorOf (build_door "single" "wood" "inward_left" "door"
        none)).slots.getD 1 noSlot).pos_meters.1) ∧
    (∀ swing, swing ∈ valid_swings → py_in "left" swing = true →
      (doorOf (build_door "single" "wood" swing "door"
        none)).meta.width_m / 2 <
      ((doorOf (build_door "single" "wood" swing "door"
        none)).slots.getD 1 noSlot).pos_meters.1) := by
  have hbd : ∀ swing, swing ∈ valid_swings →
      build_door "single" "wood" swing "door" none =
      build_door "single" "wood" swing "door" none := fun _ _ => rfl
  constructor
  · refine ⟨⟨_, rfl⟩, ?_, ?_, ?_, ?_, ?_, ?_, ?_⟩ <;>
      · simp [build_door, DOOR_STANDARDS, List.lookup, valid_materials,
          valid_swings, doorOf, Except.toOption, Option.getD, py_in,
          substrAux, noSlot]
        try norm_num
  · intro swing hsw hpy
    fin_cases hsw
    · simp [build_door, DOOR_STANDARDS, List.lookup, valid_materials,
        valid_swings, doorOf, Except.toOption, Option.getD, py_in,
        substrAux, noSlot]
      try norm_num
    · exact absurd hpy (by decide)
    · simp [build_door, DOOR_STANDARDS, List.lookup, valid_materials,
        valid_swings, doorOf, Except.toOption, Option.getD, py_in,
        substrAux, noSlot]
      try norm_num
    · exact absurd hpy (by decide)
    · exact absurd hpy (by decide)

/-- Witness for C8 at the concrete swing "outward_left". -/
theorem build_door_single_wood_inward_left_witness :
    ("outward_left" ∈ valid_swings ∧ py_in "left" "outward_left" = true) ∧
    (doorOf (build_door "single" "wood" "outward_left" "door"
       none)).meta.width_m / 2 <
      ((doorOf (build_door "single" "wood" "outward_left" "door"
       none)).slots.getD 1 noSlot).pos_meters.1 :=
  ⟨⟨by decide, by decide⟩,
   build_door_single_wood_inward_left.2 "outward_left" (by decide)
     (by decide)⟩

/-- Witness for C7: an invalid style is rejected with the documented
message. -/
theorem build_door_validation_witness :
    ("gate" ∉ ["single", "double", "garage"]) ∧
    build_door "gate" "wood" "inward_left" "door" none =
      .error ("Invalid door style: " ++ "gate" ++
        ". Valid: [single, double, garage]") :=
  ⟨by decide,
   (build_door_validation "gate" "wood" "inward_left" "door" none).2.1
     (by decide)⟩

end BlenPC

namespace MFV5

/-- Evaluation of `carve_doors` on one north/south segment spanning
`[a, b]` with one centered opening: both split guards are the same
`(b - a - W)/2 > ε` test, so the result is two pieces or none. -/
theorem carve_centered_horizontal (ε a b c y1 y2 h t W oh : ℚ) (rid : ℤ)
    (side : Side) (hside : side.isHorizontal = true)
    (hab : a < b) (hL : 2 * ε < b - a) :
    (W < b - a - 2 * ε →
      carve_doors ε [(rid, [⟨rid, side, a, y1, b, y2, h, t⟩])]
          [⟨rid, side, ((a + b) / 2, c), W, oh⟩] =
        [(rid, [⟨rid, side, a, y1, (a + b) / 2 - W / 2, y2, h, t⟩,
                ⟨rid, side, (a + b) / 2 + W / 2, y1, b, y2, h, t⟩])]) ∧
    (b - a - 2 * ε ≤ W →
      carve_doors ε [(rid, [⟨rid, side, a, y1, b, y2, h, t⟩])]
          [⟨rid, side, ((a + b) / 2, c), W, oh⟩] = [(rid, [])]) := by
  set seg : WallSegment := ⟨rid, side, a, y1, b, y2, h, t⟩ with hseg
  set op : DoorOpening := ⟨rid, side, ((a + b) / 2, c), W, oh⟩ with hop
  have hmatch : matchingOpenings [op] rid side = [op] := by
    simp [matchingOpenings, hop]
  have hproc : processSegment ε [op] rid seg =
      applyOpening ε side seg op := by
    simp only [processSegment, hmatch]
    rw [if_neg (by simp)]
    simp [applyOpenings, hseg]
  have hcarve : carve_doors ε [(rid, [seg])] [op] =
      [(rid, applyOpening ε side seg op)] := by
    simp [carve_doors, hproc]
  have happ : applyOpening ε side seg op =
      _split_horizontal ε seg ((a + b) / 2) W := by
    rw [applyOpening, hside]
    simp only [hseg, hop, min_eq_left hab.le, max_eq_right hab.le]
    rw [if_pos (show (a + b) / 2 > a + ε ∧ (a + b) / 2 < b - ε from
      ⟨by linarith, by linarith⟩)]
    simp
  constructor
  · intro hW
    rw [hcarve, happ, _split_horizontal]
    simp only [hseg, min_eq_left hab.le, max_eq_right hab.le]
    rw [if_pos (show (a + b) / 2 - W / 2 - a > ε by linarith),
        if_pos (show b - ((a + b) / 2 + W / 2) > ε by linarith)]
    rfl
  · intro hW
    rw [hcarve, happ, _split_horizontal]
    simp only [hseg, min_eq_left hab.le, max_eq_right hab.le]
    rw [if_neg (show ¬ (a + b) / 2 - W / 2 - a > ε by linarith),
        if_neg (show ¬ b - ((a + b) / 2 + W / 2) > ε by linarith)]
    rfl

/-- Evaluation of `carve_doors` on one east/west segment spanning
`[a, b]` with one centered opening. -/
theorem carve_centered_vertical (ε a b c y1 y2 h t W oh : ℚ) (rid : ℤ)
    (side : Side) (hside : side.isHorizontal = false)
    (hab : a < b) (hL : 2 * ε < b - a) :
    (W < b - a - 2 * ε →
      carve_doors ε [(rid, [⟨rid, side, y1, a, y2, b, h, t⟩])]
          [⟨rid, side, (c, (a + b) / 2), W, oh⟩] =
        [(rid, [⟨rid, side, y1, a, y2, (a + b) / 2 - W / 2, h, t⟩,
                ⟨rid, side, y1, (a + b) / 2 + W / 2, y2, b, h, t⟩])]) ∧
    (b - a - 2 * ε ≤ W →
      carve_doors ε [(rid, [⟨rid, side, y1, a, y2, b, h, t⟩])]
          [⟨rid, side, (c, (a + b) / 2), W, oh⟩] = [(rid, [])]) := by
  set seg : WallSegment := ⟨rid, side, y1, a, y2, b, h, t⟩ with hseg
  set op : DoorOpening := ⟨rid, side, (c, (a + b) / 2), W, oh⟩ with hop
  have hmatch : matchingOpenings [op] rid side = [op] := by
    simp [matchingOpenings, hop]
  have hproc : processSegment ε [op] rid seg =
      applyOpening ε side seg op := by
    simp only [processSegment, hmatch]
    rw [if_neg (by simp)]
    simp [applyOpenings, hseg]
  have hcarve : carve_doors ε [(rid, [seg])] [op] =
      [(rid, applyOpening ε side seg op)] := by
    simp [carve_doors, hproc]
  have happ : applyOpening ε side seg op =
      _split_vertical ε seg ((a + b) / 2) W := by
    rw [applyOpening, hside]
    simp only [hseg, hop, min_eq_left hab.le, max_eq_right hab.le]
    rw [if_pos (show (a + b) / 2 > a + ε ∧ (a + b) / 2 < b - ε from
      ⟨by linarith, by linarith⟩)]
    simp
  constructor
  · intro hW
    rw [hcarve, happ, _split_vertical]
    simp only [hseg, min_eq_left hab.le, max_eq_right hab.le]
    rw [if_pos (show (a + b) / 2 - W / 2 - a > ε by linarith),
        if_pos (show b - ((a + b) / 2 + W / 2) > ε by linarith)]
    rfl
  · intro hW
    rw [hcarve, happ, _split_vertical]
    simp only [hseg, min_eq_left hab.le, max_eq_right hab.le]
    rw [if_neg (show ¬ (a + b) / 2 - W / 2 - a > ε by linarith),
        if_neg (show ¬ b - ((a + b) / 2 + W / 2) > ε by linarith)]
    rfl

/-- C1 (amended): for a segment of dominant-axis length `L = b - a`
with exactly one matching centered opening of width `W`, given
`L > 2ε`: if `W < L - 2ε` carving produces exactly two pieces, each of
dominant length `(L - W)/2`, whose lengths sum exactly to `L - W`; if
`W ≥ L - 2ε` (in particular whenever `W ≥ L`) it produces zero
pieces. -/
theorem carve_centered_opening_pieces (ε a b c y1 y2 h t W oh : ℚ)
    (rid : ℤ) (side : Side) (hε : 0 < ε) (hab : a < b)
    (hL : 2 * ε < b - a) :
    (W < b - a - 2 * ε →
      ∃ p q, carve_doors ε [(rid, [spanSegment rid side a b y1 y2 h t])]
          [centeredOpening rid side a b c W oh] = [(rid, [p, q])] ∧
        p.domLength = (b - a - W) / 2 ∧ q.domLength = (b - a - W) / 2 ∧
        p.domLength + q.domLength = (b - a) - W) ∧
    (b - a - 2 * ε ≤ W →
      carve_doors ε [(rid, [spanSegment rid side a b y1 y2 h t])]
        [centeredOpening rid side a b c W oh] = [(rid, [])]) := by
  cases side
  case north =>
    obtain ⟨H1, H2⟩ := carve_centered_horizontal ε a b c y1 y2 h t W oh
      rid Side.north rfl hab hL
    simp only [spanSegment, centeredOpening, Side.isHorizontal, if_true]
    refine ⟨?_, H2⟩
    intro hW
    refine ⟨_, _, H1 hW, ?_, ?_, ?_⟩
    · simp only [WallSegment.domLength, Side.isHorizontal, if_true]
      rw [abs_of_pos (by linarith)]; ring
    · simp only [WallSegment.domLength, Side.isHorizontal, if_true]
      rw [abs_of_pos (by linarith)]; ring
    · simp only [WallSegment.domLength, Side.isHorizontal, if_true]
      rw [abs_of_pos (by linarith), abs_of_pos (by linarith)]; ring
  case south =>
    obtain ⟨H1, H2⟩ := carve_centered_horizontal ε a b c y1 y2 h t W oh
      rid Side.south rfl hab hL
    simp only [spanSegment, centeredOpening, Side.isHorizontal, if_true]
    refine ⟨?_, H2⟩
    intro hW
    refine ⟨_, _, H1 hW, ?_, ?_, ?_⟩
    · simp only [WallSegment.domLength, Side.isHorizontal, if_true]
      rw [abs_of_pos (by linarith)]; ring
    · simp only [WallSegment.domLength, Side.isHorizontal, if_true]
      rw [abs_of_pos (by linarith)]; ring
    · simp only [WallSegment.domLength, Side.isHorizontal, if_true]
      rw [abs_of_pos (by linarith), abs_of_pos (by linarith)]; ring
  case east =>
    obtain ⟨H1, H2⟩ := carve_centered_vertical ε a b c y1 y2 h t W oh
      rid Side.east rfl hab hL
    simp only [spanSegment, centeredOpening, Side.isHorizontal,
      Bool.false_eq_true, if_false]
    refine ⟨?_, H2⟩
    intro hW
    refine ⟨_, _, H1 hW, ?_, ?_, ?_⟩
    · simp only [WallSegment.domLength, Side.isHorizontal,
        Bool.false_eq_true, if_false]
      rw [abs_of_pos (by linarith)]; ring
    · simp only [WallSegment.domLength, Side.isHorizontal,
        Bool.false_eq_true, if_false]
      rw [abs_of_pos (by linarith)]; ring
    · simp only [WallSegment.domLength, Side.isHorizontal,
        Bool.false_eq_true, if_false]
      rw [abs_of_pos (by linarith), abs_of_pos (by linarith)]; ring
  case west =>
    obtain ⟨H1, H2⟩ := carve_centered_vertical ε a b c y1 y2 h t W oh
      rid Side.west rfl hab hL
    simp only [spanSegment, centeredOpening, Side.isHorizontal,
      Bool.false_eq_true, if_false]
    refine ⟨?_, H2⟩
    intro hW
    refine ⟨_, _, H1 hW, ?_, ?_, ?_⟩
    · simp only [WallSegment.domLength, Side.isHorizontal,
        Bool.false_eq_true, if_false]
      rw [abs_of_pos (by linarith)]; ring
    · simp only [WallSegment.domLength, Side.isHorizontal,
        Bool.false_eq_true, if_false]
      rw [abs_of_pos (by linarith)]; ring
    · simp only [WallSegment.domLength, Side.isHorizontal,
        Bool.false_eq_true, if_false]
      rw [abs_of_pos (by linarith), abs_of_pos (by linarith)]; ring

/-- C1 counterexample.  First conjunct: a centered opening of width
`W = 1 ≥ L = 1/100` on a segment with `L ≤ 2ε` (ε = 1/100) leaves the
segment untouched — one piece, not the zero pieces the claim requires
for `W ≥ L`.  Second conjunct: `W = 99/100 < L = 1` but
`(L - W)/2 = 1/200 ≤ ε`, so both slivers are dropped — zero pieces, not
the two pieces the claim requires for `W < L`. -/
theorem carve_centered_counterexample :
    carve_doors (1/100) [((1 : ℤ), [⟨1, .north, 0, 0, 1/100, 0, 3, 1⟩])]
        [⟨1, .north, (1/200, 0), 1, 2⟩] =
      [((1 : ℤ), [⟨1, .north, 0, 0, 1/100, 0, 3, 1⟩])] ∧
    carve_doors (1/100) [((1 : ℤ), [⟨1, .north, 0, 0, 1, 0, 3, 1⟩])]
        [⟨1, .north, (1/2, 0), 99/100, 2⟩] =
      [((1 : ℤ), [])] := by
  constructor <;>
    norm_num [carve_doors, processSegment, matchingOpenings, applyOpenings,
      applyOpening, _split_horizontal, Side.isHorizontal, min_def, max_def]

/-- Witness for C1 (amended) at ε = 1/100 on the north span `[0, 4]`
with a centered opening of width 1. -/
theorem carve_centered_opening_pieces_witness :
    ((0 : ℚ) < 1/100 ∧ (0 : ℚ) < 4 ∧ 2 * (1/100 : ℚ) < 4 - 0) ∧
    (((1 : ℚ) < 4 - 0 - 2 * (1/100) →
      ∃ p q, carve_doors (1/100)
          [((1 : ℤ), [spanSegment 1 Side.north 0 4 0 0 3 1])]
          [centeredOpening 1 Side.north 0 4 0 1 2] = [((1 : ℤ), [p, q])] ∧
        p.domLength = (4 - 0 - 1) / 2 ∧ q.domLength = (4 - 0 - 1) / 2 ∧
        p.domLength + q.domLength = (4 - 0) - 1) ∧
    ((4 : ℚ) - 0 - 2 * (1/100) ≤ 1 →
      carve_doors (1/100)
        [((1 : ℤ), [spanSegment 1 Side.north 0 4 0 0 3 1])]
        [centeredOpening 1 Side.north 0 4 0 1 2] = [((1 : ℤ), [])])) :=
  ⟨⟨by norm_num, by norm_num, by norm_num⟩,
   carve_centered_opening_pieces (1/100) 0 4 0 0 0 3 1 1 2 1 Side.north
     (by norm_num) (by norm_num) (by norm_num)⟩

/-- Every piece emitted by `_split_horizontal` keeps the side tag and
has x-extent strictly above ε (hence dominant length above ε once the
side is horizontal). -/
theorem split_horizontal_pieces (ε : ℚ) (seg : WallSegment) (cx w : ℚ) :
    ∀ p ∈ _split_horizontal ε seg cx w,
      p.side = seg.side ∧ ε < |p.x2 - p.x1| := by
  intro p hp
  unfold _split_horizontal at hp
  rw [List.mem_append] at hp
  rcases hp with hp | hp <;> split_ifs at hp with h <;>
    simp only [List.mem_singleton, List.not_mem_nil] at hp <;> subst hp <;>
    exact ⟨rfl, lt_of_lt_of_le (by linarith) (le_abs_self _)⟩

/-- Every piece emitted by `_split_vertical` keeps the side tag and has
y-extent strictly above ε. -/
theorem split_vertical_pieces (ε : ℚ) (seg : WallSegment) (cy w : ℚ) :
    ∀ p ∈ _split_vertical ε seg cy w,
      p.side = seg.side ∧ ε < |p.y2 - p.y1| := by
  intro p hp
  unfold _split_vertical at hp
  rw [List.mem_append] at hp
  rcases hp with hp | hp <;> split_ifs at hp with h <;>
    simp only [List.mem_singleton, List.not_mem_nil] at hp <;> subst hp <;>
    exact ⟨rfl, lt_of_lt_of_le (by linarith) (le_abs_self _)⟩

/-- One opening pass over a piece either returns the piece unchanged or
splits it into pieces of dominant length strictly above ε. -/
theorem applyOpening_pieces (ε : ℚ) (side : Side) (p : WallSegment)
    (o : DoorOpening) (hps : p.side = side) :
    ∀ q ∈ applyOpening ε side p o,
      q = p ∨ (q.side = side ∧ ε < q.domLength) := by
  intro q hq
  unfold applyOpening at hq
  cases hb : side.isHorizontal <;> rw [hb] at hq <;> simp only [] at hq
  · rw [if_neg (by simp)] at hq
    split_ifs at hq with hc
    · obtain ⟨hside, hlen⟩ := split_vertical_pieces ε p o.center.2 o.width q hq
      refine Or.inr ⟨hside.trans hps, ?_⟩
      rw [WallSegment.domLength, hside, hps, hb]
      simpa using hlen
    · simp only [List.mem_singleton] at hq
      exact Or.inl hq
  · rw [if_pos (by simp)] at hq
    split_ifs at hq with hc
    · obtain ⟨hside, hlen⟩ := split_horizontal_pieces ε p o.center.1 o.width q hq
      refine Or.inr ⟨hside.trans hps, ?_⟩
      rw [WallSegment.domLength, hside, hps, hb]
      simpa using hlen
    · simp only [List.mem_singleton] at hq
      exact Or.inl hq

/-- Applying a sequence of openings to a segment's working set yields
only the original segment or pieces of dominant length above ε. -/
theorem applyOpenings_pieces (ε : ℚ) (seg : WallSegment)
    (ro : List DoorOpening) :
    ∀ q ∈ applyOpenings ε seg ro,
      q = seg ∨ (q.side = seg.side ∧ ε < q.domLength) := by
  unfold applyOpenings
  suffices h : ∀ (ro : List DoorOpening) (pieces : List WallSegment),
      (∀ p ∈ pieces, p = seg ∨ (p.side = seg.side ∧ ε < p.domLength)) →
      ∀ q ∈ ro.foldl (fun pieces opening =>
          pieces.flatMap fun p => applyOpening ε seg.side p opening) pieces,
        q = seg ∨ (q.side = seg.side ∧ ε < q.domLength) by
    intro q hq
    exact h ro [seg] (by simp) q hq
  intro ro
  induction ro with
  | nil => intro pieces hp q hq; exact hp q hq
  | cons o rest ih =>
      intro pieces hp q hq
      rw [List.foldl_cons] at hq
      refine ih _ ?_ q hq
      intro p' hp'
      rw [List.mem_flatMap] at hp'
      obtain ⟨p, hpmem, hpin⟩ := hp'
      have hinv := hp p hpmem
      have hside : p.side = seg.side := by
        rcases hinv with rfl | ⟨h, _⟩
        · rfl
        · exact h
      rcases applyOpening_pieces ε seg.side p o hside p' hpin with rfl | h
      · exact hinv
      · exact Or.inr h

/-- Each output piece of a segment's processing is the segment itself
(passed through) or has dominant length above ε. -/
theorem processSegment_pieces (ε : ℚ) (ops : List DoorOpening) (rid : ℤ)
    (seg : WallSegment) :
    ∀ q ∈ processSegment ε ops rid seg, q = seg ∨ ε < q.domLength := by
  intro q hq
  simp only [processSegment] at hq
  split_ifs at hq with h
  · simp only [List.mem_singleton] at hq
    exact Or.inl hq
  · rcases applyOpenings_pieces ε seg _ q hq with rfl | ⟨_, hlen⟩
    · exact Or.inl rfl
    · exact Or.inr hlen

/-- C2 counterexample: a degenerate (zero-length) input segment with no
matching opening is passed through `carve_doors` unchanged, so the
output contains a segment of length ≤ ε. -/
theorem carve_doors_degenerate_passthrough :
    carve_doors (1/100) [((1 : ℤ), [⟨1, .north, 0, 0, 0, 0, 3, 1⟩])] [] =
      [((1 : ℤ), [⟨1, .north, 0, 0, 0, 0, 3, 1⟩])] ∧
    ¬ (1/100 : ℚ) <
      (⟨1, .north, 0, 0, 0, 0, 3, 1⟩ : WallSegment).domLength := by
  constructor
  · simp [carve_doors, processSegment, matchingOpenings]
  · simp [WallSegment.domLength, Side.isHorizontal]

/-- C2 (amended): every output segment of `carve_doors` either is an
input segment passed through unchanged or was produced by a split, and
split pieces always have dominant length strictly above ε; hence if
every input segment has dominant length above ε, so does every output
segment. -/
theorem carve_doors_min_length (ε : ℚ)
    (segs : List (ℤ × List WallSegment)) (ops : List DoorOpening)
    (hin : ∀ rid lseg sg, (rid, lseg) ∈ segs → sg ∈ lseg →
      ε < sg.domLength) :
    ∀ rid l' q, (rid, l') ∈ carve_doors ε segs ops → q ∈ l' →
      ε < q.domLength := by
  intro rid l' q hmem hq
  unfold carve_doors at hmem
  rw [List.mem_map] at hmem
  obtain ⟨rs, hrs, heq⟩ := hmem
  rw [Prod.mk.injEq] at heq
  obtain ⟨h1, h2⟩ := heq
  rw [← h2] at hq
  rw [List.mem_flatMap] at hq
  obtain ⟨sg, hsg, hq2⟩ := hq
  rcases processSegment_pieces ε ops rs.1 sg q hq2 with rfl | h
  · exact hin rs.1 rs.2 q (by rw [Prod.mk.eta]; exact hrs) hsg
  · exact h

/-- Witness for C2 at a concrete non-degenerate input. -/
theorem carve_doors_min_length_witness :
    (∀ rid lseg sg,
        (rid, lseg) ∈ [((1 : ℤ),
          [(⟨1, .north, 0, 0, 4, 0, 3, 1⟩ : WallSegment)])] →
        sg ∈ lseg → (1/100 : ℚ) < sg.domLength) ∧
    (1/100 : ℚ) < (⟨1, .north, 0, 0, 4, 0, 3, 1⟩ : WallSegment).domLength := by
  have hin : ∀ rid lseg sg,
      (rid, lseg) ∈ [((1 : ℤ),
        [(⟨1, .north, 0, 0, 4, 0, 3, 1⟩ : WallSegment)])] →
      sg ∈ lseg → (1/100 : ℚ) < sg.domLength := by
    intro rid lseg sg h1 h2
    simp only [List.mem_singleton, Prod.mk.injEq] at h1
    obtain ⟨rfl, rfl⟩ := h1
    simp only [List.mem_singleton] at h2
    subst h2
    simp [WallSegment.domLength, Side.isHorizontal]
    norm_num
  refine ⟨hin, ?_⟩
  refine carve_doors_min_length (1/100) _ [] hin 1
    [(⟨1, .north, 0, 0, 4, 0, 3, 1⟩ : WallSegment)]
    (⟨1, .north, 0, 0, 4, 0, 3, 1⟩ : WallSegment) ?_ (by simp)
  simp [carve_doors, processSegment, matchingOpenings]

/-- C9: `carve_doors` passes a segment with no matching opening for its
(dict key, side) pair through unchanged, returns the empty mapping for
an empty segment mapping, and returns the mapping unchanged when there
are no openings; it is total, so it never raises. -/
theorem carve_doors_noop (ε : ℚ) (segs : List (ℤ × List WallSegment))
    (openings : List DoorOpening) (rid : ℤ) (l : List WallSegment)
    (seg : WallSegment) :
    (matchingOpenings openings rid seg.side = [] →
      processSegment ε openings rid seg = [seg]) ∧
    ((rid, l) ∈ segs → seg ∈ l →
      matchingOpenings openings rid seg.side = [] →
      ∃ l', (rid, l') ∈ carve_doors ε segs openings ∧ seg ∈ l') ∧
    carve_doors ε [] openings = [] ∧
    carve_doors ε segs [] = segs := by
  have hps : ∀ (ops : List DoorOpening) (r : ℤ) (s : WallSegment),
      matchingOpenings ops r s.side = [] →
      processSegment ε ops r s = [s] := by
    intro ops r s h
    simp [processSegment, h]
  refine ⟨hps openings rid seg, ?_, rfl, ?_⟩
  · intro hm hs h
    refine ⟨l.flatMap (processSegment ε openings rid), ?_, ?_⟩
    · exact List.mem_map.mpr ⟨(rid, l), hm, rfl⟩
    · exact List.mem_flatMap.mpr ⟨seg, hs, by rw [hps openings rid seg h]; simp⟩
  · have hfm : ∀ (t : List WallSegment) (r : ℤ),
        t.flatMap (processSegment ε [] r) = t := by
      intro t r
      induction t with
      | nil => rfl
      | cons a u ih =>
          rw [List.flatMap_cons, ih,
            hps [] r a (by simp [matchingOpenings])]
          rfl
    show segs.map _ = segs
    have : ∀ rs : ℤ × List WallSegment,
        (rs.1, rs.2.flatMap (processSegment ε [] rs.1)) = rs := by
      intro rs
      rw [hfm]
    calc segs.map (fun rs => (rs.1, rs.2.flatMap (processSegment ε [] rs.1)))
        = segs.map id := List.map_congr_left fun rs _ => this rs
      _ = segs := List.map_id segs

/-- Witness for C9: a north-side segment with only an east-side opening
in play is passed through unchanged. -/
theorem carve_doors_noop_witness :
    ((1 : ℤ), [(⟨1, .north, 0, 0, 4, 0, 3, 1⟩ : WallSegment)]) ∈
        ([((1 : ℤ), [(⟨1, .north, 0, 0, 4, 0, 3, 1⟩ : WallSegment)])]) ∧
    (⟨1, .north, 0, 0, 4, 0, 3, 1⟩ : WallSegment) ∈
        [(⟨1, .north, 0, 0, 4, 0, 3, 1⟩ : WallSegment)] ∧
    matchingOpenings [⟨1, .east, (4, 2), 1, 2⟩] 1 Side.north = [] ∧
    ∃ l', (1, l') ∈ carve_doors (1/100)
        [((1 : ℤ), [(⟨1, .north, 0, 0, 4, 0, 3, 1⟩ : WallSegment)])]
        [⟨1, .east, (4, 2), 1, 2⟩] ∧
      (⟨1, .north, 0, 0, 4, 0, 3, 1⟩ : WallSegment) ∈ l' :=
  ⟨by simp, by simp, by simp [matchingOpenings],
   (carve_doors_noop (1/100)
      [((1 : ℤ), [(⟨1, .north, 0, 0, 4, 0, 3, 1⟩ : WallSegment)])]
      [⟨1, .east, (4, 2), 1, 2⟩] 1
      [(⟨1, .north, 0, 0, 4, 0, 3, 1⟩ : WallSegment)]
      ⟨1, .north, 0, 0, 4, 0, 3, 1⟩).2.1 (by simp) (by simp)
      (by simp [matchingOpenings])⟩

/-- C5: for every footprint and base elevation, `build_roof` returns 2
faces for FLAT, 5 for HIP, 5 for GABLED and 6 for SHED; every roof type
not handled by the HIP/GABLED/SHED branches produces the FLAT result
(the documented fallback) rather than an error. -/
theorem build_roof_face_counts (rh : ℚ) (fp : Rect) (bz : ℚ) :
    (build_roof rh fp bz .FLAT).faces.length = 2 ∧
    (build_roof rh fp bz .HIP).faces.length = 5 ∧
    (build_roof rh fp bz .GABLED).faces.length = 5 ∧
    (build_roof rh fp bz .SHED).faces.length = 6 ∧
    ∀ rt : RoofType, rt ≠ .HIP → rt ≠ .GABLED → rt ≠ .SHED →
      build_roof rh fp bz rt = build_roof rh fp bz .FLAT := by
  refine ⟨by simp [build_roof, flatRoof], by simp [build_roof],
    by simp [build_roof], by simp [build_roof], ?_⟩
  intro rt h1 h2 h3
  cases rt <;> simp_all [build_roof]

/-- Witness for C5 at a concrete 10×10 footprint, exercising both the
FLAT face count and the fallback conjunct at `rt = FLAT`. -/
theorem build_roof_face_counts_witness :
    (build_roof 3 ⟨0, 0, 10, 10⟩ 0 .FLAT).faces.length = 2 ∧
    (RoofType.FLAT ≠ .HIP ∧ RoofType.FLAT ≠ .GABLED ∧
      RoofType.FLAT ≠ .SHED) ∧
    build_roof 3 ⟨0, 0, 10, 10⟩ 0 .FLAT =
      build_roof 3 ⟨0, 0, 10, 10⟩ 0 .FLAT :=
  ⟨(build_roof_face_counts 3 ⟨0, 0, 10, 10⟩ 0).1,
   ⟨by decide, by decide, by decide⟩,
   (build_roof_face_counts 3 ⟨0, 0, 10, 10⟩ 0).2.2.2.2 .FLAT (by decide)
     (by decide) (by decide)⟩

/-- C6 counterexample: on the footprint `Rect 0 0 4 10` the x-span (4)
is strictly shorter than the y-span (10), yet the GABLED ridge
endpoints share their x-coordinate and differ in y — the ridge runs
along the y-span, so it is not parallel to the shorter horizontal
span. -/
theorem gabled_ridge_not_parallel_to_shorter_span :
    ((4 : ℚ) - 0 < 10 - 0) ∧
    (gabledRidgeEndpoints (build_roof 3 ⟨0, 0, 4, 10⟩ 0 .GABLED)).1.1 =
      (gabledRidgeEndpoints (build_roof 3 ⟨0, 0, 4, 10⟩ 0 .GABLED)).2.1 ∧
    (gabledRidgeEndpoints (build_roof 3 ⟨0, 0, 4, 10⟩ 0 .GABLED)).1.2.1 ≠
      (gabledRidgeEndpoints (build_roof 3 ⟨0, 0, 4, 10⟩ 0 .GABLED)).2.2.1 := by
  refine ⟨by norm_num, ?_, ?_⟩ <;> simp [build_roof, gabledRidgeEndpoints]

/-- C6 (amended): the GABLED ridge always runs along the rectangle's
y-span (regardless of which span is shorter), at elevation
`base_z + ROOF_HEIGHT`, with endpoints at the midpoint of the x-extent
at each y-edge; the output has two quad slope faces, two triangular
gable ends and one bottom quad. -/
theorem gabled_ridge_structure (rh : ℚ) (fp : Rect) (bz : ℚ) :
    (gabledRidgeEndpoints (build_roof rh fp bz .GABLED)).1 =
      ((fp.min_x + fp.max_x) / 2, fp.min_y, bz + rh) ∧
    (gabledRidgeEndpoints (build_roof rh fp bz .GABLED)).2 =
      ((fp.min_x + fp.max_x) / 2, fp.max_y, bz + rh) ∧
    (build_roof rh fp bz .GABLED).faces.map
        (fun f => f.vertices.length) = [4, 4, 3, 3, 4] ∧
    (build_roof rh fp bz .GABLED).faces.getD 4 ⟨[]⟩ =
      ⟨[(fp.min_x, fp.max_y, bz), (fp.max_x, fp.max_y, bz),
        (fp.max_x, fp.min_y, bz), (fp.min_x, fp.min_y, bz)]⟩ := by
  refine ⟨?_, ?_, ?_, ?_⟩ <;> simp [build_roof, gabledRidgeEndpoints]

/-- C10: for a footprint with positive width and depth and positive
roof height, the SHED branch emits degenerate faces: the min_x side
face `(b3, b0, c0, c3)` (index 4) has only two distinct vertex
positions, and the min_y / max_y side faces (indices 1 and 3) each
repeat one vertex, because the slope's low edge coincides with the
base rectangle at `z = base_z`. -/
theorem shed_degenerate_faces (rh : ℚ) (fp : Rect) (bz : ℚ)
    (hw : fp.min_x < fp.max_x) (hd : fp.min_y < fp.max_y) (hr : 0 < rh) :
    (∃ p q, ((build_roof rh fp bz .SHED).faces.getD 4 ⟨[]⟩).vertices =
        [p, q, q, p] ∧ p ≠ q) ∧
    (∃ u0 u1 u2, ((build_roof rh fp bz .SHED).faces.getD 1 ⟨[]⟩).vertices =
        [u0, u1, u2, u0] ∧ u0 ≠ u1 ∧ u0 ≠ u2 ∧ u1 ≠ u2) ∧
    (∃ v0 v1 v3, ((build_roof rh fp bz .SHED).faces.getD 3 ⟨[]⟩).vertices =
        [v0, v1, v1, v3] ∧ v0 ≠ v1 ∧ v0 ≠ v3 ∧ v1 ≠ v3) := by
  refine ⟨⟨(fp.min_x, fp.max_y, bz), (fp.min_x, fp.min_y, bz),
      by simp [build_roof], ?_⟩,
    ⟨(fp.min_x, fp.min_y, bz), (fp.max_x, fp.min_y, bz),
     (fp.max_x, fp.min_y, bz + rh), by simp [build_roof], ?_, ?_, ?_⟩,
    ⟨(fp.max_x, fp.max_y, bz), (fp.min_x, fp.max_y, bz),
     (fp.max_x, fp.max_y, bz + rh), by simp [build_roof], ?_, ?_, ?_⟩⟩ <;>
    · intro h
      simp only [Prod.mk.injEq] at h
      obtain ⟨h1, h2, h3⟩ := h
      linarith

/-- Witness for C10 at a concrete 10×10 footprint with roof height 3. -/
theorem shed_degenerate_faces_witness :
    ((0 : ℚ) < 10 ∧ (0 : ℚ) < 10 ∧ (0 : ℚ) < 3) ∧
    ((∃ p q, ((build_roof 3 ⟨0, 0, 10, 10⟩ 0 .SHED).faces.getD 4
        ⟨[]⟩).vertices = [p, q, q, p] ∧ p ≠ q) ∧
     (∃ u0 u1 u2, ((build_roof 3 ⟨0, 0, 10, 10⟩ 0 .SHED).faces.getD 1
        ⟨[]⟩).vertices = [u0, u1, u2, u0] ∧ u0 ≠ u1 ∧ u0 ≠ u2 ∧ u1 ≠ u2) ∧
     (∃ v0 v1 v3, ((build_roof 3 ⟨0, 0, 10, 10⟩ 0 .SHED).faces.getD 3
        ⟨[]⟩).vertices = [v0, v1, v1, v3] ∧ v0 ≠ v1 ∧ v0 ≠ v3 ∧ v1 ≠ v3)) :=
  ⟨⟨by norm_num, by norm_num, by norm_num⟩,
   shed_degenerate_faces 3 ⟨0, 0, 10, 10⟩ 0 (by norm_num) (by norm_num)
     (by norm_num)⟩

end MFV5

